import Mathlib

/-!
Verification development for bib2tab (src/bib2tab.py).

The Python program converts a BibTeX file into a static HTML table.  This file
gives a shallow embedding of the program's pure core: field lookup, DOI / author /
title / venue / volume / year / pages extraction, row construction including the
citekey-based PDF link, HTML escaping and row rendering, and the client-side
filtering and sorting behaviour embedded as JavaScript in the generated page.

All text is modelled as `List Char`.  Python `dict` records become association
lists (`List (List Char × List Char)`) with unique keys, matching the dict
domain.  Regular-expression searches of the source (`DOI_RE`, the year patterns,
the JS filter patterns) are translated into explicit leftmost-match scanners.
Character classes `\w`, `\d`, `\s` of the Python/JS regex engines are modelled
at ASCII level (the inputs the program handles are BibTeX text); filesystem
facts (`Path.exists`, `Path.as_uri`) are passed in as explicit parameters.
-/

/-- ASCII whitespace, as used by Python `str.strip` / `str.split()` and by the
JavaScript `\s` class and `String.prototype.trim` (restricted to ASCII). -/
def isSpaceCh (c : Char) : Bool :=
  c = ' ' || c = '\t' || c = '\n' || c = '\r' || c = Char.ofNat 11 || c = Char.ofNat 12

/-- Word character for the `\b` boundary of the `re` / JS regex engines
(ASCII fragment of `\w`). -/
def isWordCh (c : Char) : Bool :=
  ('a' ≤ c && c ≤ 'z') || ('A' ≤ c && c ≤ 'Z') || ('0' ≤ c && c ≤ '9') || c = '_'

/-- ASCII decimal digit (`\d`). -/
def isDigitCh (c : Char) : Bool := '0' ≤ c && c ≤ '9'

/-- Python `str.strip()` (ASCII whitespace). -/
def pyStrip (l : List Char) : List Char :=
  ((l.dropWhile isSpaceCh).reverse.dropWhile isSpaceCh).reverse

/-- Lower-casing as done by Python `str.lower()` and JS `toLowerCase()`
(ASCII fragment). -/
def lowerL (l : List Char) : List Char := l.map Char.toLower

/-- `leadsWith p l` holds when `p` is an initial segment of `l`. -/
def leadsWith : List Char → List Char → Bool
  | [], _ => true
  | _ :: _, [] => false
  | a :: as, b :: bs => a == b && leadsWith as bs

/-- Index of the first occurrence of `sep` in the list, if any. -/
def findSub (sep : List Char) : List Char → Option Nat
  | [] => none
  | x :: rest => if leadsWith sep (x :: rest) then some 0 else (findSub sep rest).map (· + 1)

def splitOnAux (sep : List Char) : Nat → List Char → List (List Char)
  | 0, l => [l]
  | Nat.succ fuel, l =>
    match findSub sep l with
    | none => [l]
    | some k => l.take k :: splitOnAux sep fuel (l.drop (k + sep.length))

/-- Python `str.split(sep)` for a non-empty separator: leftmost,
non-overlapping. -/
def splitOnL (sep l : List Char) : List (List Char) := splitOnAux sep (l.length + 1) l

/-- Accumulator-based splitting on whitespace runs, for Python `str.split()`
with no argument (empty pieces dropped). -/
def wordsAux : List Char → List Char → List (List Char)
  | [], acc => if acc = [] then [] else [acc.reverse]
  | c :: rest, acc =>
    if isSpaceCh c then
      (if acc = [] then wordsAux rest [] else acc.reverse :: wordsAux rest [])
    else wordsAux rest (c :: acc)

/-- Python `str.split()` (no argument): split on whitespace runs. -/
def pyWords (l : List Char) : List (List Char) := wordsAux l []

/-- `l.get? i` wrapped to a plain character test. -/
def charAt (l : List Char) (i : Nat) : Option Char := l.get? i

def wordAtIdx (l : List Char) (i : Nat) : Bool :=
  match charAt l i with
  | some c => isWordCh c
  | none => false

/-- There is a word character just before index `i` (the `\b` test for a
match that begins with a word character fails exactly when this holds). -/
def wordBefore (l : List Char) (i : Nat) : Bool :=
  match i with
  | 0 => false
  | Nat.succ k => wordAtIdx l k

def digitAt (l : List Char) (i : Nat) : Bool :=
  match charAt l i with
  | some c => isDigitCh c
  | none => false

/-- Length of the run of decimal digits starting at index `i`. -/
def digitRunAt (l : List Char) (i : Nat) : Nat := ((l.drop i).takeWhile isDigitCh).length

/-- Length of the run of whitespace starting at index `i`. -/
def wsRunAt (l : List Char) (i : Nat) : Nat := ((l.drop i).takeWhile isSpaceCh).length

/-- The slice `[i, j)` of the list. -/
def sliceL (l : List Char) (i j : Nat) : List Char := (l.drop i).take (j - i)

def digit4At (l : List Char) (i : Nat) : Bool :=
  digitAt l i && digitAt l (i+1) && digitAt l (i+2) && digitAt l (i+3)

def digitVal (c : Char) : Nat := c.toNat - 48

def natOfDigits (l : List Char) : Nat := l.foldl (fun a c => a * 10 + digitVal c) 0

/-- Numeric value of the four digits starting at `i`. -/
def num4 (l : List Char) (i : Nat) : Nat := natOfDigits (sliceL l i (i+4))

/-! ### Records and field lookup (src/bib2tab.py lines 62-88) -/

/-- One bibliographic entry: a field-name / value association list standing for
the Python `dict` produced by `bibtexparser` (keys are unique, as in a dict). -/
abbrev Record := List (List Char × List Char)

/-- `norm_key`: `k.strip().lower()`. -/
def normKey (k : List Char) : List Char := lowerL (pyStrip k)

/-- Lookup in `lower_map = {norm_key(k): v for k, v in entry.items()}`.
A dict comprehension keeps the last binding for a repeated normalized key,
hence the reversed search. -/
def lowerLookup (e : Record) (name : List Char) : Option (List Char) :=
  (e.reverse.find? (fun kv => normKey kv.1 == normKey name)).map Prod.snd

/-- `get_field(entry, *names)`: first name whose value strips to a non-empty
string wins. -/
def getField (e : Record) (names : List (List Char)) : Option (List Char) :=
  names.findSome? (fun n =>
    match lowerLookup e n with
    | none => none
    | some v => let s := pyStrip v; if s = [] then none else some s)

/-- Exact-key dict lookup `entry.get(k)` (dict keys are unique, so the first
binding is the binding). -/
def lookupExact (e : Record) (k : List Char) : Option (List Char) :=
  (e.find? (fun kv => kv.1 == k)).map Prod.snd

/-- `get_citekey`: try keys `ID`, `id`, `key`, `citekey` (truthy value, then
stripped), then `get_field(entry, "citation_key")`, else the empty string. -/
def getCitekey (e : Record) : List Char :=
  match ["ID".data, "id".data, "key".data, "citekey".data].findSome?
      (fun k => match lookupExact e k with
        | some v => if v = [] then none else some (pyStrip v)
        | none => none) with
  | some s => s
  | none =>
    match getField e ["citation_key".data] with
    | some v => pyStrip v
    | none => []

/-! ### DOI extraction (src/bib2tab.py lines 59, 91-106)

`DOI_RE = re.compile(r"\b10\.\d{4,9}/[-._;()/:A-Z0-9]+\b", re.IGNORECASE)`.
The scanner below reproduces `DOI_RE.search`: leftmost start position wins; the
digit count between `10.` and `/` is forced by the following `/`; the trailing
character class is matched greedily and then backtracks (shrinking from the
right) until the final word boundary holds. -/

/-- The character class `[-._;()/:A-Z0-9]` under `re.IGNORECASE`. -/
def doiClassCh (c : Char) : Bool :=
  ('a' ≤ c && c ≤ 'z') || ('A' ≤ c && c ≤ 'Z') || ('0' ≤ c && c ≤ '9') ||
  c = '-' || c = '.' || c = '_' || c = ';' || c = '(' || c = ')' || c = '/' || c = ':'

/-- Length of the run of DOI-class characters starting at index `i`. -/
def doiClassRunAt (l : List Char) (i : Nat) : Nat := ((l.drop i).takeWhile doiClassCh).length

/-- A word boundary between indices `i-1` and `i` (out-of-range counts as
non-word). -/
def boundaryAt (l : List Char) (i : Nat) : Bool :=
  match i with
  | 0 => wordAtIdx l 0
  | Nat.succ k => wordAtIdx l k != wordAtIdx l (k+1)

/-- Attempt to match `DOI_RE` at start index `i`; returns the matched text. -/
def doiMatchAt (l : List Char) (i : Nat) : Option (List Char) :=
  if wordBefore l i then none
  else if charAt l i = some '1' && charAt l (i+1) = some '0' && charAt l (i+2) = some '.' then
    let r := digitRunAt l (i+3)
    if 4 ≤ r && r ≤ 9 && charAt l (i+3+r) = some '/' then
      let cstart := i + 3 + r + 1
      let m := doiClassRunAt l cstart
      match ((List.range (m+1)).reverse.find? (fun j => 1 ≤ j && boundaryAt l (cstart + j))) with
      | some j => some (sliceL l i (cstart + j))
      | none => none
    else none
  else none

/-- `DOI_RE.search`: leftmost match, as text. -/
def doiSearch (l : List Char) : Option (List Char) :=
  (List.range l.length).findSome? (doiMatchAt l)

def doiUrlHead1 : List Char := "https://dx.doi.org/".data
def doiUrlHead2 : List Char := "http://dx.doi.org/".data
def doiUrlHead3 : List Char := "https://doi.org/".data
def doiUrlHead4 : List Char := "http://doi.org/".data

/-- `re.sub(r"^https?://(dx\.)?doi\.org/", "", doi, flags=re.IGNORECASE)`:
at most one leading URL head is removed (the pattern is anchored, so it can
only match at position 0 and only once). -/
def stripDoiUrl (l : List Char) : List Char :=
  let low := lowerL l
  if leadsWith doiUrlHead1 low then l.drop doiUrlHead1.length
  else if leadsWith doiUrlHead2 low then l.drop doiUrlHead2.length
  else if leadsWith doiUrlHead3 low then l.drop doiUrlHead3.length
  else if leadsWith doiUrlHead4 low then l.drop doiUrlHead4.length
  else l

/-- `extract_doi` (lines 91-106). -/
def extractDoi (e : Record) : Option (List Char) :=
  match getField e ["doi".data] with
  | some doi =>
    let d1 := pyStrip doi
    let d2 := pyStrip (stripDoiUrl d1)
    some (match doiSearch d2 with
      | some m => m
      | none => d2)
  | none =>
    ["url".data, "note".data, "howpublished".data, "annote".data].findSome? (fun f =>
      match getField e [f] with
      | none => none
      | some v => doiSearch v)

/-! ### Authors (src/bib2tab.py lines 109-162) -/

/-- Python `a.split(",", 1)` followed by stripping both pieces and joining with
a single blank, as in `split_authors` for a piece containing a comma. -/
def commaNormalize (a : List Char) : List Char :=
  match findSub [','] a with
  | some k => pyStrip (pyStrip (a.take k) ++ [' '] ++ pyStrip (a.drop (k+1)))
  | none => a

/-- `split_authors` (lines 109-130): split the field on the literal `" and "`,
drop empty pieces, and normalize each piece to `Surname Given`. -/
def splitAuthors (authorField : List Char) : List (List Char) :=
  ((splitOnL " and ".data authorField).map pyStrip).filter (· ≠ []) |>.map (fun a =>
    if a.contains ',' then commaNormalize a
    else
      let tokens := pyWords a
      if 2 ≤ tokens.length then
        pyStrip ((tokens.getLastD []) ++ [' '] ++ List.intercalate [' '] tokens.dropLast)
      else a)

/-- `extract_authors_list` (lines 133-145): `author`/`authors`, else `editor`. -/
def extractAuthorsList (e : Record) : List (List Char) :=
  match getField e ["author".data, "authors".data] with
  | some author => splitAuthors author
  | none =>
    match getField e ["editor".data] with
    | some editor => splitAuthors editor
    | none => []

/-- `authors_compact_and_full` (lines 148-162): `(compact, full)`. -/
def authorsCompactAndFull (e : Record) : List Char × List Char :=
  let authors := extractAuthorsList e
  if authors = [] then ([], [])
  else
    let full := List.intercalate ", ".data authors
    if authors.length = 1 then (authors.headD [], full)
    else (authors.headD [] ++ " et al.".data, full)

/-! ### Title, venue, volume, year, pages (src/bib2tab.py lines 165-203) -/

def extractTitle (e : Record) : List Char :=
  match getField e ["title".data] with
  | some t => t
  | none =>
    match getField e ["booktitle".data] with
    | some t => t
    | none =>
      match getField e ["maintitle".data] with
      | some t => t
      | none => []

def extractJournal (e : Record) : List Char :=
  match getField e ["journal".data] with
  | some t => t
  | none =>
    match getField e ["booktitle".data] with
    | some t => t
    | none =>
      match getField e ["school".data] with
      | some t => t
      | none =>
        match getField e ["institution".data] with
        | some t => t
        | none => []

def extractVolume (e : Record) : List Char :=
  match getField e ["volume".data] with
  | some v => v
  | none => []

/-- Match of `\b(\d{4})\b` at index `i` of the ambient list. -/
def year4At (l : List Char) (i : Nat) : Option (List Char) :=
  if !wordBefore l i && digit4At l i && !wordAtIdx l (i+4) then some (sliceL l i (i+4))
  else none

/-- `re.search(r"\b(\d{4})\b", d)`: leftmost word-bounded 4-digit run. -/
def year4Search (l : List Char) : Option (List Char) :=
  (List.range l.length).findSome? (year4At l)

/-- `extract_year` (lines 188-196).  Note the final fallback: when `date` is
present but contains no word-bounded 4-digit run, the whole `date` value is
returned as-is. -/
def extractYear (e : Record) : List Char :=
  match getField e ["year".data] with
  | some y => y
  | none =>
    match getField e ["date".data] with
    | some d =>
      (match year4Search d with
       | some g => g
       | none => d)
    | none => []

/-- Python `str.replace("--", "–")`: every occurrence, leftmost first. -/
def replaceAllSub : Nat → List Char → List Char → List Char → List Char
  | 0, _, _, l => l
  | Nat.succ fuel, pat, rep, l =>
    match findSub pat l with
    | none => l
    | some k => l.take k ++ rep ++ replaceAllSub fuel pat rep (l.drop (k + pat.length))

/-- `extract_pages` (lines 199-203): `pages` with `--` replaced by an en dash. -/
def extractPages (e : Record) : List Char :=
  match getField e ["pages".data] with
  | some p => replaceAllSub (p.length + 1) "--".data "–".data p
  | none => []

/-! ### HTML helpers (src/bib2tab.py lines 209-237) -/

/-- Replace every occurrence of the character `c` by `rep` (Python
`str.replace` with a one-character needle). -/
def replCh (c : Char) (rep : List Char) : List Char → List Char
  | [] => []
  | x :: rest => (if x = c then rep else [x]) ++ replCh c rep rest

/-- `esc` = `html.escape(s, quote=True)`: the five replacements in source
order (`&`, `<`, `>`, `"`, `'`). -/
def esc (l : List Char) : List Char :=
  replCh '\'' "&#x27;".data
    (replCh '"' "&quot;".data
      (replCh '>' "&gt;".data
        (replCh '<' "&lt;".data
          (replCh '&' "&amp;".data l))))

/-- `make_link(href, label)` (line 213). -/
def makeLink (href label : List Char) : List Char :=
  "<a href=\"".data ++ esc href ++ "\" target=\"_blank\" rel=\"noopener noreferrer\">".data
    ++ esc label ++ "</a>".data

/-- `make_pdf_icon_link(href, tooltip)` (lines 217-224). -/
def makePdfIconLink (href tooltip : List Char) : List Char :=
  "<a class=\"pdf-ico\" href=\"".data ++ esc href ++ "\" target=\"_blank\" ".data
    ++ "rel=\"noopener noreferrer\" title=\"".data ++ esc tooltip
    ++ "\" aria-label=\"".data ++ esc tooltip ++ "\">📄</a>".data

/-- The placeholder cell content `'<span class="muted">—</span>'`. -/
def mutedSpan : List Char := "<span class=\"muted\">—</span>".data

/-- `td(content_html, full_text, cls)` (lines 227-237). -/
def tdCell (contentHtml fullText cls : List Char) : List Char :=
  "<td".data
    ++ (if cls = [] then [] else " class=\"".data ++ cls ++ "\"".data)
    ++ " data-full=\"".data ++ esc fullText
    ++ "\" title=\"".data ++ esc fullText ++ "\">".data
    ++ (if contentHtml = [] then mutedSpan else contentHtml)
    ++ "</td>".data

/-! ### Row construction (src/bib2tab.py lines 243-333)

`build_rows` consults the filesystem (`(bib_dir / f"{citekey}.pdf").exists()`)
and the OS path-to-URI conversion (`pdf_path.resolve().as_uri()`).  Both are
passed in as parameters: `pdfExists ck` states that `<ck>.pdf` exists next to
the source file, and `fileUri ck` is the local-file URI of that path. -/

structure Row where
  doiHtml : List Char
  pdfHtml : List Char
  authors : List Char
  title : List Char
  journal : List Char
  volume : List Char
  year : List Char
  pages : List Char
  doiFull : List Char
  pdfFull : List Char
  authorsFull : List Char
  titleFull : List Char
  journalFull : List Char
  volumeFull : List Char
  yearFull : List Char
  pagesFull : List Char
  authorsSort : List Char
  searchFull : List Char
  deriving Repr, DecidableEq

/-- Python `str.rstrip("/")`. -/
def rstripSlash (l : List Char) : List Char := (l.reverse.dropWhile (· = '/')).reverse

/-- The `base` computed once per run:
`pdf_base_url.rstrip("/") if pdf_base_url else None`. -/
def pdfBase (pdfBaseUrl : Option (List Char)) : Option (List Char) :=
  match pdfBaseUrl with
  | none => none
  | some u => if u = [] then none else some (rstripSlash u)

/-- Loop body of `build_rows` for one entry. -/
def buildRow (pdfExists : List Char → Bool) (fileUri : List Char → List Char)
    (pdfBaseUrl : Option (List Char)) (e : Record) : Row :=
  let doiRaw := match extractDoi e with
    | some d => d
    | none => []
  let doiHtml := if doiRaw = [] then [] else makeLink ("https://doi.org/".data ++ doiRaw) doiRaw
  let base := pdfBase pdfBaseUrl
  let citekey := getCitekey e
  let pdfPair : List Char × List Char :=
    if citekey = [] then ([], [])
    else if pdfExists citekey then
      let href := match base with
        | some b => if b = [] then fileUri citekey
                    else b ++ "/".data ++ citekey ++ ".pdf".data
        | none => fileUri citekey
      (makePdfIconLink href ("Apri PDF: ".data ++ citekey ++ ".pdf".data),
       citekey ++ ".pdf".data)
    else ([], [])
  let acf := authorsCompactAndFull e
  let authorsList := extractAuthorsList e
  let authorsSort :=
    match authorsList with
    | [] => []
    | a0 :: _ => lowerL ((pyWords a0).headD [])
  let title := extractTitle e
  let journal := extractJournal e
  let volume := extractVolume e
  let year := extractYear e
  let pages := extractPages e
  let searchFull := List.intercalate [' ']
    (([acf.2, title, journal, volume, year, pages, doiRaw]).filter (· ≠ []))
  { doiHtml := doiHtml
    pdfHtml := pdfPair.1
    authors := esc acf.1
    title := esc title
    journal := esc journal
    volume := esc volume
    year := esc year
    pages := esc pages
    doiFull := doiRaw
    pdfFull := pdfPair.2
    authorsFull := acf.2
    titleFull := title
    journalFull := journal
    volumeFull := volume
    yearFull := year
    pagesFull := pages
    authorsSort := authorsSort
    searchFull := searchFull }

/-- `build_rows` (lines 243-333): one row per entry, in order. -/
def buildRows (pdfExists : List Char → Bool) (fileUri : List Char → List Char)
    (pdfBaseUrl : Option (List Char)) (entries : List Record) : List Row :=
  entries.map (buildRow pdfExists fileUri pdfBaseUrl)

/-- `render_row` (lines 336-350). -/
def renderRow (r : Row) : List Char :=
  "<tr data-search=\"".data ++ esc r.searchFull
    ++ "\" data-year=\"".data ++ esc r.yearFull ++ "\">".data
    ++ tdCell r.doiHtml r.doiFull "c-doi".data
    ++ tdCell r.pdfHtml r.pdfFull "c-pdf".data
    ++ "<td class=\"c-authors\" data-full=\"".data ++ esc r.authorsFull
    ++ "\" data-sort=\"".data ++ esc r.authorsSort
    ++ "\" title=\"".data ++ esc r.authorsFull ++ "\">".data
    ++ (if r.authors = [] then mutedSpan else r.authors)
    ++ "</td>".data
    ++ tdCell r.title r.titleFull "c-title".data
    ++ tdCell r.journal r.journalFull "c-journal".data
    ++ tdCell r.volume r.volumeFull "c-volume".data
    ++ tdCell r.year r.yearFull "c-year".data
    ++ tdCell r.pages r.pagesFull "c-pages".data
    ++ "</tr>".data

/-! ### Client-side filter (src/bib2tab.py lines 486-555, embedded JS)

The generated page's `parseYearRange`, `yearInRange` and `applyFilter` are
embedded below.  Each JS regex is a fixed pattern and is translated into a
leftmost-match scanner over the (already lower-cased) query. -/

structure YearRange where
  min : Option Nat
  max : Option Nat
  matched : List Char
  deriving Repr, DecidableEq

/-- Literal text appears at index `i`. -/
def litAt (l : List Char) (i : Nat) (lit : List Char) : Bool := leadsWith lit (l.drop i)

/-- `/\b(\d{4})\s*-\s*(\d{4})\b/` at start index `i`. -/
def yrPairAt (l : List Char) (i : Nat) : Option YearRange :=
  if wordBefore l i then none
  else if digit4At l i then
    let j1 := i + 4
    let w1 := wsRunAt l j1
    if charAt l (j1 + w1) = some '-' then
      let j2 := j1 + w1 + 1
      let w2 := wsRunAt l j2
      if digit4At l (j2 + w2) && !wordAtIdx l (j2 + w2 + 4) then
        let a := num4 l i
        let b := num4 l (j2 + w2)
        some { min := some (Nat.min a b), max := some (Nat.max a b),
               matched := sliceL l i (j2 + w2 + 4) }
      else none
    else none
  else none

/-- `/\btra\s+il\s+(\d{4})\s+e\s+(\d{4})\b/` at start index `i`. -/
def yrTraAt (l : List Char) (i : Nat) : Option YearRange :=
  if wordBefore l i then none
  else if litAt l i "tra".data then
    let j1 := i + 3
    let w1 := wsRunAt l j1
    if 1 ≤ w1 && litAt l (j1 + w1) "il".data then
      let j2 := j1 + w1 + 2
      let w2 := wsRunAt l j2
      if 1 ≤ w2 && digit4At l (j2 + w2) then
        let j3 := j2 + w2 + 4
        let w3 := wsRunAt l j3
        if 1 ≤ w3 && litAt l (j3 + w3) "e".data then
          let j4 := j3 + w3 + 1
          let w4 := wsRunAt l j4
          if 1 ≤ w4 && digit4At l (j4 + w4) && !wordAtIdx l (j4 + w4 + 4) then
            let a := num4 l (j2 + w2)
            let b := num4 l (j4 + w4)
            some { min := some (Nat.min a b), max := some (Nat.max a b),
                   matched := sliceL l i (j4 + w4 + 4) }
          else none
        else none
      else none
    else none
  else none

/-- `/(?:^|\s)-\s*(\d{4})\b/` at start index `i`; the alternation consumes the
leading whitespace character when matched through `\s`. -/
def yrUpToAt (l : List Char) (i : Nat) : Option YearRange :=
  let attempt : Nat → Option YearRange := fun k =>
    let w := wsRunAt l k
    if digit4At l (k + w) && !wordAtIdx l (k + w + 4) then
      some { min := none, max := some (num4 l (k + w)), matched := sliceL l i (k + w + 4) }
    else none
  if i = 0 && charAt l 0 = some '-' then attempt 1
  else if (match charAt l i with | some c => isSpaceCh c | none => false)
          && charAt l (i+1) = some '-' then attempt (i + 2)
  else none

/-- `/\b(\d{4})\s*-\s*(?:$|\s)/` at start index `i`; the greedy `\s*` keeps one
whitespace character for the final `\s` when the match is not at the end. -/
def yrFromAt (l : List Char) (i : Nat) : Option YearRange :=
  if wordBefore l i then none
  else if digit4At l i then
    let j1 := i + 4
    let w1 := wsRunAt l j1
    if charAt l (j1 + w1) = some '-' then
      let j2 := j1 + w1 + 1
      let r := wsRunAt l j2
      if j2 + r = l.length || 1 ≤ r then
        some { min := some (num4 l i), max := none, matched := sliceL l i (j2 + r) }
      else none
    else none
  else none

/-- `/\bfino\s+al\s+(\d{4})\b/` at start index `i`. -/
def yrFinoAt (l : List Char) (i : Nat) : Option YearRange :=
  if wordBefore l i then none
  else if litAt l i "fino".data then
    let j1 := i + 4
    let w1 := wsRunAt l j1
    if 1 ≤ w1 && litAt l (j1 + w1) "al".data then
      let j2 := j1 + w1 + 2
      let w2 := wsRunAt l j2
      if 1 ≤ w2 && digit4At l (j2 + w2) && !wordAtIdx l (j2 + w2 + 4) then
        some { min := none, max := some (num4 l (j2 + w2)),
               matched := sliceL l i (j2 + w2 + 4) }
      else none
    else none
  else none

/-- `/\bdal\s+(\d{4})\b/` at start index `i`. -/
def yrDalAt (l : List Char) (i : Nat) : Option YearRange :=
  if wordBefore l i then none
  else if litAt l i "dal".data then
    let j1 := i + 3
    let w1 := wsRunAt l j1
    if 1 ≤ w1 && digit4At l (j1 + w1) && !wordAtIdx l (j1 + w1 + 4) then
      some { min := some (num4 l (j1 + w1)), max := none,
             matched := sliceL l i (j1 + w1 + 4) }
    else none
  else none

/-- Leftmost match of a positional pattern. -/
def scanFor (p : List Char → Nat → Option YearRange) (l : List Char) : Option YearRange :=
  (List.range (l.length + 1)).findSome? (p l)

/-- `parseYearRange(raw)` (JS, lines 490-525): lower-case the input, then try
the six patterns in source order. -/
def parseYearRange (raw : List Char) : Option YearRange :=
  let s := lowerL raw
  match scanFor yrPairAt s with
  | some r => some r
  | none =>
    match scanFor yrTraAt s with
    | some r => some r
    | none =>
      match scanFor yrUpToAt s with
      | some r => some r
      | none =>
        match scanFor yrFromAt s with
        | some r => some r
        | none =>
          match scanFor yrFinoAt s with
          | some r => some r
          | none => scanFor yrDalAt s

/-- First match of `/\d{4}/` (no boundaries): leftmost 4-digit window. -/
def find4Run (l : List Char) : Option (List Char) :=
  (List.range l.length).findSome? (fun i =>
    if digit4At l i then some (sliceL l i (i+4)) else none)

/-- `yearInRange(yearStr, range)` (JS, lines 527-534): no range accepts every
row; with a range, a row with no parsable 4-digit year is rejected. -/
def yearInRange (yearStr : List Char) (rng : Option YearRange) : Bool :=
  match rng with
  | none => true
  | some r =>
    match find4Run yearStr with
    | none => false
    | some t =>
      let y := natOfDigits t
      (match r.min with | some mn => decide (mn ≤ y) | none => true) &&
      (match r.max with | some mx => decide (y ≤ mx) | none => true)

/-- JS `String.prototype.trim` (ASCII whitespace). -/
def jsTrim (l : List Char) : List Char := pyStrip l

/-- JS `replace(pat, rep)` with a string pattern: first occurrence only. -/
def replaceFirstSub (pat rep l : List Char) : List Char :=
  match findSub pat l with
  | none => l
  | some k => l.take k ++ rep ++ l.drop (k + pat.length)

/-- JS global `replace(/\s+/g, ' ')`: collapse each whitespace run to one
blank. -/
def collapseWsAux : List Char → Bool → List Char
  | [], _ => []
  | c :: rest, prevWs =>
    if isSpaceCh c then
      (if prevWs then collapseWsAux rest true else ' ' :: collapseWsAux rest true)
    else c :: collapseWsAux rest false

def collapseWs (l : List Char) : List Char := collapseWsAux l false

/-- JS `String.prototype.includes` for the substring test of `applyFilter`. -/
def containsSub (hay pat : List Char) : Bool :=
  (List.range (hay.length + 1)).any (fun i => leadsWith pat (hay.drop i))

/-- One `<tr>` as seen by `applyFilter`: its `data-search` and `data-year`
attributes and its rendered `innerText` fallback. -/
structure FilterRow where
  search : List Char
  year : List Char
  innerText : List Char
  deriving Repr, DecidableEq

/-- The needle used for substring matching, after the recognized year range
(if any) is deleted from the query. -/
def filterNeedle (q : List Char) : List Char :=
  let raw := lowerL q
  match parseYearRange raw with
  | some r => lowerL (jsTrim (collapseWs (replaceFirstSub r.matched [' '] raw)))
  | none => jsTrim raw

/-- Visibility of one row under `applyFilter` (JS, lines 536-555). -/
def rowVisible (q : List Char) (row : FilterRow) : Bool :=
  let raw := lowerL q
  let rng := parseYearRange raw
  let needle := filterNeedle q
  let text := lowerL (if row.search = [] then row.innerText else row.search)
  let yearOk := yearInRange row.year rng
  let textOk := needle = [] || containsSub text needle
  yearOk && textOk

/-- `applyFilter` over all rows: the visibility flags, in order. -/
def applyFilter (q : List Char) (rows : List FilterRow) : List Bool :=
  rows.map (rowVisible q)

/-- The live match count shown next to the search box. -/
def visibleCount (q : List Char) (rows : List FilterRow) : Nat :=
  (applyFilter q rows).count true

/-! ### Client-side numeric sort (src/bib2tab.py lines 557-603, embedded JS) -/

/-- `parseNum(s)` (JS, lines 565-568): first match of the regex `-?\d+` as an integer,
`Number.NEGATIVE_INFINITY` (here `none`) when there is none. -/
def parseNum (s : List Char) : Option Int :=
  (List.range s.length).findSome? (fun i =>
    if charAt s i = some '-' && digitAt s (i+1) then
      some (-(Int.ofNat (natOfDigits ((s.drop (i+1)).takeWhile isDigitCh))))
    else if digitAt s i then
      some (Int.ofNat (natOfDigits ((s.drop i).takeWhile isDigitCh)))
    else none)

/-- `cellValue` for a cell with no `data-sort` attribute:
`(cell.textContent || '').trim()`. -/
def cellValue (s : List Char) : List Char := jsTrim s

/-- Strict order on sort keys, with `none` standing for negative infinity. -/
def keyLt : Option Int → Option Int → Bool
  | none, none => false
  | none, some _ => true
  | some _, none => false
  | some a, some b => a < b

/-- The `'num'` comparator of `sortBy` (JS, lines 586-595):
`(an < bn ? -1 : 1) * dir`, `0` on equal keys. -/
def cmpNum (dir : Int) (a b : List Char) : Int :=
  let an := parseNum (cellValue a)
  let bn := parseNum (cellValue b)
  if an = bn then 0 else (if keyLt an bn then -1 else 1) * dir

/-- Stable insertion: an element goes before the first existing element it
does not compare after; ties keep original order, like the (stable) JS
`Array.prototype.sort`. -/
def insertStable (cmp : List Char → List Char → Int) (x : List Char) :
    List (List Char) → List (List Char)
  | [] => [x]
  | y :: rest => if cmp x y ≤ 0 then x :: y :: rest else y :: insertStable cmp x rest

def sortStable (cmp : List Char → List Char → Int) : List (List Char) → List (List Char)
  | [] => []
  | x :: rest => insertStable cmp x (sortStable cmp rest)

/-- Sorting a numeric-typed column: stable sort of the cell texts under the
`'num'` comparator with direction `dir` (`1` ascending, `-1` descending). -/
def sortByNum (dir : Int) (cells : List (List Char)) : List (List Char) :=
  sortStable (cmpNum dir) cells

/-! ### CLI control flow (src/bib2tab.py lines 39-53 and 718-743)

`main` touches the filesystem and the Python import machinery; its decision
structure is embedded over two environment facts: whether the source file
exists, and whether the `bibtexparser` dependency can be imported.  A
`SystemExit` raised with a message string makes the interpreter print the
message and exit with status 1. -/

structure RunOutcome where
  exitCode : Nat
  wroteOutput : Bool
  installHint : Bool
  deriving Repr, DecidableEq

/-- Control flow of `main`: missing source file prints an error and returns 2
before anything is written; a missing `bibtexparser` raises `SystemExit` with
the `pip install bibtexparser` hint (status 1); otherwise the document is
written and `main` returns 0. -/
def mainModel (bibExists depAvailable : Bool) : RunOutcome :=
  if !bibExists then { exitCode := 2, wroteOutput := false, installHint := false }
  else if !depAvailable then { exitCode := 1, wroteOutput := false, installHint := true }
  else { exitCode := 0, wroteOutput := true, installHint := false }

/-! ### Basic list lemmas -/

theorem listGet_append_lt {α : Type} :
    ∀ (a b : List α) (i : Nat), i < a.length → (a ++ b).get? i = a.get? i := by
  intro a
  induction a with
  | nil => intro b i h; simp at h
  | cons x xs ih =>
    intro b i h
    cases i with
    | zero => rfl
    | succ j => exact ih b j (by simpa using Nat.lt_of_succ_lt_succ h)

theorem listGet_append_ge {α : Type} :
    ∀ (a b : List α) (i : Nat), a.length ≤ i → (a ++ b).get? i = b.get? (i - a.length) := by
  intro a
  induction a with
  | nil => intro b i _; simp
  | cons x xs ih =>
    intro b i h
    cases i with
    | zero => simp at h
    | succ j =>
      have := ih b j (Nat.le_of_succ_le_succ h)
      simpa [Nat.succ_sub_succ] using this

theorem listGet_some_mem {α : Type} :
    ∀ {l : List α} {i : Nat} {a : α}, l.get? i = some a → a ∈ l := by
  intro l
  induction l with
  | nil => intro i a h; simp [List.get?] at h
  | cons x xs ih =>
    intro i a h
    cases i with
    | zero => simp [List.get?] at h; simp [h]
    | succ j => exact List.mem_cons_of_mem x (ih h)

theorem listGet_some_lt {α : Type} :
    ∀ {l : List α} {i : Nat} {a : α}, l.get? i = some a → i < l.length := by
  intro l
  induction l with
  | nil => intro i a h; simp [List.get?] at h
  | cons x xs ih =>
    intro i a h
    cases i with
    | zero => simp
    | succ j => exact Nat.succ_lt_succ (ih h)

/-! ### Raw-markup guard

`ScriptGuard l` states that every `<` in `l` has at least two following
characters inside `l` and that they do not spell `sc`; appending such lists
can never create the character sequence `<sc`, and in particular never the
sequence `<script>`. -/

def ScriptGuard (l : List Char) : Prop :=
  ∀ i, i < l.length → l.get? i = some '<' →
    (i + 2 < l.length ∧ ¬(l.get? (i+1) = some 's' ∧ l.get? (i+2) = some 'c'))

/-- The pattern `p` occurs contiguously inside `l`. -/
def occursIn (p l : List Char) : Prop := ∃ s t, l = s ++ p ++ t

theorem scriptGuard_append {a b : List Char} (ha : ScriptGuard a) (hb : ScriptGuard b) :
    ScriptGuard (a ++ b) := by
  intro i hi hget
  rcases Nat.lt_or_ge i a.length with h | h
  · have hg : a.get? i = some '<' := by rw [← listGet_append_lt a b i h]; exact hget
    obtain ⟨h2, hpair⟩ := ha i h hg
    refine ⟨by simp [List.length_append]; omega, ?_⟩
    rw [listGet_append_lt a b (i+1) (by omega), listGet_append_lt a b (i+2) (by omega)]
    exact hpair
  · have hg : b.get? (i - a.length) = some '<' := by
      rw [← listGet_append_ge a b i h]; exact hget
    have hjlt : i - a.length < b.length := listGet_some_lt hg
    obtain ⟨h2, hpair⟩ := hb (i - a.length) hjlt hg
    refine ⟨by simp [List.length_append]; omega, ?_⟩
    rw [listGet_append_ge a b (i+1) (by omega), listGet_append_ge a b (i+2) (by omega)]
    have e1 : i + 1 - a.length = (i - a.length) + 1 := by omega
    have e2 : i + 2 - a.length = (i - a.length) + 2 := by omega
    rw [e1, e2]
    exact hpair

theorem scriptGuard_of_no_lt {l : List Char} (h : '<' ∉ l) : ScriptGuard l := by
  intro i _ hget
  exact absurd (listGet_some_mem hget) h

/-! ### Properties of `esc` -/

theorem mem_replCh {c' c : Char} {rep : List Char} :
    ∀ {l : List Char}, c' ∈ replCh c rep l → c' ∈ rep ∨ (c' ∈ l ∧ c' ≠ c) := by
  intro l
  induction l with
  | nil => intro h; simp [replCh] at h
  | cons x rest ih =>
    intro h
    simp only [replCh, List.mem_append] at h
    rcases h with h | h
    · by_cases hx : x = c
      · rw [if_pos hx] at h; exact Or.inl h
      · rw [if_neg hx] at h
        simp at h
        exact Or.inr ⟨by simp [h], by simpa [h] using hx⟩
    · rcases ih h with h | ⟨h1, h2⟩
      · exact Or.inl h
      · exact Or.inr ⟨List.mem_cons_of_mem x h1, h2⟩

theorem esc_mem {c : Char} {l : List Char} (h : c ∈ esc l) :
    c ≠ '<' ∧ c ≠ '>' ∧ c ≠ '"' ∧ c ≠ '\'' := by
  have hA : ∀ x ∈ "&#x27;".data, x ≠ '<' ∧ x ≠ '>' ∧ x ≠ '"' ∧ x ≠ '\'' := by decide
  have hQ : ∀ x ∈ "&quot;".data, x ≠ '<' ∧ x ≠ '>' ∧ x ≠ '"' ∧ x ≠ '\'' := by decide
  have hG : ∀ x ∈ "&gt;".data, x ≠ '<' ∧ x ≠ '>' ∧ x ≠ '"' ∧ x ≠ '\'' := by decide
  have hL : ∀ x ∈ "&lt;".data, x ≠ '<' ∧ x ≠ '>' ∧ x ≠ '"' ∧ x ≠ '\'' := by decide
  have hM : ∀ x ∈ "&amp;".data, x ≠ '<' ∧ x ≠ '>' ∧ x ≠ '"' ∧ x ≠ '\'' := by decide
  unfold esc at h
  rcases mem_replCh h with h | ⟨h, hne1⟩
  · exact hA c h
  rcases mem_replCh h with h | ⟨h, hne2⟩
  · exact hQ c h
  rcases mem_replCh h with h | ⟨h, hne3⟩
  · exact hG c h
  rcases mem_replCh h with h | ⟨h, hne4⟩
  · exact hL c h
  rcases mem_replCh h with h | ⟨h, _⟩
  · exact hM c h
  · exact ⟨hne4, hne3, hne2, hne1⟩

theorem esc_no_lt {l : List Char} : '<' ∉ esc l := fun h => (esc_mem h).1 rfl

theorem scriptGuard_esc (l : List Char) : ScriptGuard (esc l) :=
  scriptGuard_of_no_lt esc_no_lt

theorem not_script_of_guard {l : List Char} (h : ScriptGuard l) (r : List Char) :
    ¬ occursIn ('<' :: 's' :: 'c' :: r) l := by
  rintro ⟨s, t, rfl⟩
  rw [List.append_assoc] at h
  have e0 : (s ++ (('<' :: 's' :: 'c' :: r) ++ t)).get? s.length = some '<' := by
    rw [listGet_append_ge s _ s.length (Nat.le_refl _)]
    simp
  have hlt : s.length < (s ++ (('<' :: 's' :: 'c' :: r) ++ t)).length := by
    simp [List.length_append]
  obtain ⟨_, hpair⟩ := h s.length hlt e0
  apply hpair
  constructor
  · rw [listGet_append_ge s _ (s.length + 1) (by omega)]
    have : s.length + 1 - s.length = 1 := by omega
    rw [this]; rfl
  · rw [listGet_append_ge s _ (s.length + 2) (by omega)]
    have : s.length + 2 - s.length = 2 := by omega
    rw [this]; rfl

theorem scriptGuard_nil : ScriptGuard [] := by
  unfold ScriptGuard; decide

theorem scriptGuard_mutedSpan : ScriptGuard mutedSpan := by
  unfold mutedSpan ScriptGuard; decide

theorem scriptGuard_makeLink (href label : List Char) : ScriptGuard (makeLink href label) := by
  unfold makeLink
  repeat' apply scriptGuard_append
  all_goals first
    | exact scriptGuard_esc _
    | (unfold ScriptGuard; decide)

theorem scriptGuard_makePdfIconLink (href tooltip : List Char) :
    ScriptGuard (makePdfIconLink href tooltip) := by
  unfold makePdfIconLink
  repeat' apply scriptGuard_append
  all_goals first
    | exact scriptGuard_esc _
    | (unfold ScriptGuard; decide)

theorem scriptGuard_tdCell (content full cls : List Char)
    (hc : ScriptGuard content) (hcls : ScriptGuard cls) :
    ScriptGuard (tdCell content full cls) := by
  unfold tdCell
  split_ifs
  all_goals repeat' apply scriptGuard_append
  all_goals first
    | exact hc
    | exact hcls
    | exact scriptGuard_esc _
    | exact scriptGuard_mutedSpan
    | exact scriptGuard_nil
    | (unfold ScriptGuard; decide)

set_option maxHeartbeats 3000000 in
theorem scriptGuard_renderRow (r : Row)
    (hdoi : ScriptGuard r.doiHtml) (hpdf : ScriptGuard r.pdfHtml)
    (hauth : ScriptGuard r.authors) (ht : ScriptGuard r.title)
    (hj : ScriptGuard r.journal) (hv : ScriptGuard r.volume)
    (hy : ScriptGuard r.year) (hp : ScriptGuard r.pages) :
    ScriptGuard (renderRow r) := by
  unfold renderRow
  split_ifs
  all_goals repeat' apply scriptGuard_append
  all_goals first
    | assumption
    | exact scriptGuard_esc _
    | exact scriptGuard_mutedSpan
    | (split_ifs <;> first | assumption | exact scriptGuard_mutedSpan)
    | (unfold ScriptGuard; decide)

theorem scriptGuard_buildRow_doiHtml (pe : List Char → Bool) (uri : List Char → List Char)
    (bu : Option (List Char)) (e : Record) : ScriptGuard (buildRow pe uri bu e).doiHtml := by
  show ScriptGuard (if (match extractDoi e with | some d => d | none => []) = [] then []
    else makeLink _ _)
  split_ifs
  · exact scriptGuard_nil
  · exact scriptGuard_makeLink _ _

theorem scriptGuard_buildRow_pdfHtml (pe : List Char → Bool) (uri : List Char → List Char)
    (bu : Option (List Char)) (e : Record) : ScriptGuard (buildRow pe uri bu e).pdfHtml := by
  unfold buildRow
  dsimp only
  split_ifs
  all_goals first
    | exact scriptGuard_nil
    | exact scriptGuard_makePdfIconLink _ _

theorem renderRow_buildRow_guard (pe : List Char → Bool) (uri : List Char → List Char)
    (bu : Option (List Char)) (e : Record) :
    ScriptGuard (renderRow (buildRow pe uri bu e)) := by
  apply scriptGuard_renderRow
  · exact scriptGuard_buildRow_doiHtml pe uri bu e
  · exact scriptGuard_buildRow_pdfHtml pe uri bu e
  · exact scriptGuard_esc _
  · exact scriptGuard_esc _
  · exact scriptGuard_esc _
  · exact scriptGuard_esc _
  · exact scriptGuard_esc _
  · exact scriptGuard_esc _

/-! ### Helper lemmas on `pyStrip` -/

theorem dropWhile_eq_self_head {p : Char → Bool} {x : Char} {xs : List Char}
    (h : (x :: xs).dropWhile p = x :: xs) : p x = false := by
  by_cases hp : p x
  · rw [List.dropWhile_cons, if_pos hp] at h
    have hle := (List.dropWhile_suffix p (l := xs)).length_le
    rw [h] at hle
    simp at hle
  · simpa using hp

theorem pyStrip_fix_drops {l : List Char} (h : pyStrip l = l) :
    l.dropWhile isSpaceCh = l ∧ l.reverse.dropWhile isSpaceCh = l.reverse := by
  unfold pyStrip at h
  have hBlen := congrArg List.length h
  simp only [List.length_reverse] at hBlen
  have hAle := (List.dropWhile_suffix isSpaceCh (l := l)).length_le
  have hBle := (List.dropWhile_suffix isSpaceCh (l := (l.dropWhile isSpaceCh).reverse)).length_le
  simp only [List.length_reverse] at hBle
  have hAlen : (l.dropWhile isSpaceCh).length = l.length := by omega
  have hA : l.dropWhile isSpaceCh = l :=
    (List.dropWhile_suffix isSpaceCh).eq_of_length hAlen
  constructor
  · exact hA
  · rw [hA] at hBlen
    exact (List.dropWhile_suffix isSpaceCh).eq_of_length (by simpa using hBlen)

theorem pyStrip_append_fix (hd : List Char) (rest : List Char)
    (hhd : hd.dropWhile isSpaceCh = hd) (hhd2 : hd ≠ [])
    (hs : pyStrip rest = rest) (hne : rest ≠ []) :
    pyStrip (hd ++ rest) = hd ++ rest := by
  obtain ⟨h1, h2⟩ := pyStrip_fix_drops hs
  unfold pyStrip
  have hlead : (hd ++ rest).dropWhile isSpaceCh = hd ++ rest := by
    rcases hd with _ | ⟨x, xs⟩
    · exact absurd rfl hhd2
    · have hx : isSpaceCh x = false := dropWhile_eq_self_head hhd
      simp [List.cons_append, List.dropWhile_cons, hx]
  rw [hlead, List.reverse_append]
  have htrail : (rest.reverse ++ hd.reverse).dropWhile isSpaceCh
      = rest.reverse ++ hd.reverse := by
    rcases hrev : rest.reverse with _ | ⟨x, xs⟩
    · exact absurd (by simpa using congrArg List.reverse hrev) hne
    · rw [hrev] at h2
      have hx : isSpaceCh x = false := dropWhile_eq_self_head h2
      simp [List.cons_append, List.dropWhile_cons, hx]
  rw [htrail, List.reverse_append, List.reverse_reverse, List.reverse_reverse]

/-! ### Removing a DOI URL head -/

theorem lowerL_append (a b : List Char) : lowerL (a ++ b) = lowerL a ++ lowerL b := by
  unfold lowerL; exact List.map_append _ a b

theorem stripDoiUrl_head1 (rest : List Char) : stripDoiUrl (doiUrlHead1 ++ rest) = rest :=
  List.drop_left doiUrlHead1 rest

theorem stripDoiUrl_head2 (rest : List Char) : stripDoiUrl (doiUrlHead2 ++ rest) = rest :=
  List.drop_left doiUrlHead2 rest

theorem stripDoiUrl_head3 (rest : List Char) : stripDoiUrl (doiUrlHead3 ++ rest) = rest :=
  List.drop_left doiUrlHead3 rest

theorem stripDoiUrl_head4 (rest : List Char) : stripDoiUrl (doiUrlHead4 ++ rest) = rest :=
  List.drop_left doiUrlHead4 rest

/-- Field lookup in a one-field record whose key is already normalized. -/
theorem getField_single (k v : List Char) (hk : normKey k = k) (hv : pyStrip v ≠ []) :
    getField [(k, v)] [k] = some (pyStrip v) := by
  unfold getField lowerLookup
  simp [List.findSome?_cons, List.find?, hk, hv]

/-! ## Claim theorems -/

/-- C7 counterexample: with no `year` field and a `date` field containing no
4-digit run, `extract_year` returns the `date` value verbatim, not the empty
string as the claim states. -/
theorem C7_counterexample :
    extractYear [("date".data, "January".data)] = "January".data ∧
    "January".data ≠ [] := by
  constructor
  · decide
  · decide

/-- C7 (amended): the extracted year is the (stripped, non-empty) `year` field
when present; otherwise the first word-bounded 4-digit run of the `date`
field; otherwise the `date` field itself when present; empty only when both
fields are absent or strip to empty. -/
theorem C7_amended_year (e : Record) :
    (∀ y, getField e ["year".data] = some y → extractYear e = y) ∧
    (getField e ["year".data] = none →
      ∀ d, getField e ["date".data] = some d →
        (∀ g, year4Search d = some g → extractYear e = g) ∧
        (year4Search d = none → extractYear e = d)) ∧
    (getField e ["year".data] = none → getField e ["date".data] = none →
      extractYear e = []) := by
  refine ⟨?_, ?_, ?_⟩
  · intro y hy; unfold extractYear; rw [hy]
  · intro hy d hd
    constructor
    · intro g hg; unfold extractYear; rw [hy, hd]; dsimp only; rw [hg]
    · intro hg; unfold extractYear; rw [hy, hd]; dsimp only; rw [hg]
  · intro hy hd; unfold extractYear; rw [hy, hd]

/-- C7 witness: the amended statement evaluated on concrete records. -/
theorem C7_witness :
    extractYear [("year".data, "1999".data)] = "1999".data ∧
    extractYear [("date".data, "15 March 2020".data)] = "2020".data := by
  constructor
  · exact (C7_amended_year _).1 "1999".data (by decide)
  · exact ((C7_amended_year _).2.1 (by decide) "15 March 2020".data (by decide)).1
      "2020".data (by decide)

/-- C9: a row's search blob is the blank-joined concatenation of its own full
(untruncated) field values, in the order full authors, title, venue, volume,
year, pages, DOI, with empty values omitted. -/
theorem C9_search_blob (pe : List Char → Bool) (uri : List Char → List Char)
    (bu : Option (List Char)) (e : Record) :
    (buildRow pe uri bu e).searchFull = List.intercalate [' ']
      (([(buildRow pe uri bu e).authorsFull, (buildRow pe uri bu e).titleFull,
         (buildRow pe uri bu e).journalFull, (buildRow pe uri bu e).volumeFull,
         (buildRow pe uri bu e).yearFull, (buildRow pe uri bu e).pagesFull,
         (buildRow pe uri bu e).doiFull]).filter (· ≠ [])) := rfl

/-- C10: the run exits 0 on success; a missing source file exits 2 with no
output written; a missing `bibtexparser` dependency aborts with nonzero status
and the installation hint. -/
theorem C10_exit_codes :
    (∀ dep : Bool, mainModel false dep
        = { exitCode := 2, wroteOutput := false, installHint := false }) ∧
    mainModel true false = { exitCode := 1, wroteOutput := false, installHint := true } ∧
    mainModel true true = { exitCode := 0, wroteOutput := true, installHint := false } :=
  ⟨fun _ => rfl, rfl, rfl⟩

/-- C6: numeric column sorting keys each cell by the first integer substring
of its value (`none` = negative infinity, which sorts before every numeric
key ascending); years [2019, 2001, 2015] sort ascending to [2001, 2015, 2019]
and re-sorting descending gives [2019, 2015, 2001]. -/
theorem C6_numeric_sort :
    sortByNum 1 ["2019".data, "2001".data, "2015".data]
        = ["2001".data, "2015".data, "2019".data] ∧
    sortByNum (-1) ["2001".data, "2015".data, "2019".data]
        = ["2019".data, "2015".data, "2001".data] ∧
    (∀ s t : List Char, ∀ n : Int, parseNum (cellValue s) = none →
        parseNum (cellValue t) = some n → cmpNum 1 s t = -1) := by
  refine ⟨by decide, by decide, ?_⟩
  intro s t n hs ht
  unfold cmpNum
  rw [hs, ht]
  simp [keyLt]

/-- C6 witness: a cell with no integer substring compares below a numeric
cell in ascending order. -/
theorem C6_witness : cmpNum 1 "n/a".data "2001".data = -1 :=
  C6_numeric_sort.2.2 "n/a".data "2001".data 2001 (by decide) (by decide)

/-- C5: a row is visible exactly when it passes both the numeric year-range
constraint parsed from the query and the substring constraint on the needle
left after deleting the matched range text; under the query 2015-2020 the
needle is empty, a row with year 2018 stays visible and a row with year 2021
is hidden. -/
theorem C5_year_range_filter :
    (∀ (q : List Char) (row : FilterRow),
      rowVisible q row
        = (yearInRange row.year (parseYearRange (lowerL q)) &&
           (decide (filterNeedle q = []) ||
            containsSub (lowerL (if row.search = [] then row.innerText else row.search))
              (filterNeedle q)))) ∧
    filterNeedle "2015-2020".data = [] ∧
    filterNeedle "neural 2015-2020 nets".data = "neural nets".data ∧
    rowVisible "2015-2020".data
      { search := "alpha".data, year := "2018".data, innerText := [] } = true ∧
    rowVisible "2015-2020".data
      { search := "alpha".data, year := "2021".data, innerText := [] } = false := by
  refine ⟨fun q row => rfl, by decide, by decide, by decide, by decide⟩

/-- C3: authors split on the literal separator, comma pieces normalized from
Surname-comma-Given, comma-free multi-token pieces reordered with the last
token first, single tokens unchanged; the compact form carries the et-al
suffix exactly when there is more than one author, and equals the full form
for a single author. -/
theorem C3_authors_normalization :
    (authorsCompactAndFull [("author".data, "Smith, John and Doe, Jane".data)]
        = ("Smith John et al.".data, "Smith John, Doe Jane".data)) ∧
    (splitAuthors "Smith, John and Doe, Jane".data
        = ["Smith John".data, "Doe Jane".data]) ∧
    (∀ e : Record, (extractAuthorsList e).length = 1 →
      (authorsCompactAndFull e).1 = (authorsCompactAndFull e).2) ∧
    (∀ e : Record, 2 ≤ (extractAuthorsList e).length →
      (authorsCompactAndFull e).1 = (extractAuthorsList e).headD [] ++ " et al.".data ∧
      (authorsCompactAndFull e).2 = List.intercalate ", ".data (extractAuthorsList e)) := by
  refine ⟨by decide, by decide, ?_, ?_⟩
  · intro e h
    obtain ⟨a, ha⟩ := List.length_eq_one.mp h
    unfold authorsCompactAndFull
    rw [ha]
    simp [List.intercalate]
  · intro e h
    rcases hl : extractAuthorsList e with _ | ⟨a, rest⟩
    · rw [hl] at h; simp at h
    · rcases rest with _ | ⟨b, t⟩
      · rw [hl] at h; simp at h
      · unfold authorsCompactAndFull
        rw [hl]
        simp

/-- C3 witness: a single-author field gives equal compact and full forms. -/
theorem C3_witness :
    (authorsCompactAndFull [("author".data, "Smith, John".data)]).1
      = (authorsCompactAndFull [("author".data, "Smith, John".data)]).2 :=
  C3_authors_normalization.2.2.1 _ (by decide)

/-- C1 counterexample: a direct `doi` field that does not match `DOI_RE` is
returned as-is by `extract_doi`, not replaced by the empty value as the claim
states. -/
theorem C1_counterexample :
    extractDoi [("doi".data, "hello".data)] = some "hello".data ∧
    "hello".data ≠ [] := by
  constructor
  · decide
  · decide

/-- C1 (amended): the direct `doi` field is stripped, one leading
doi.org/dx.doi.org URL head (http or https) is removed, and the `DOI_RE`
match of the remainder is returned; when the remainder has no match the
remainder itself is returned (not empty).  Without a direct field, the
fields url, note, howpublished, annote are scanned in that order for the
first `DOI_RE` match, and only then is the result empty.  A prefixed input
whose remainder wholly matches the pattern extracts to the input minus the
URL head. -/
theorem C1_amended_doi :
    (∀ (e : Record) (d : List Char), getField e ["doi".data] = some d →
      (∀ m, doiSearch (pyStrip (stripDoiUrl (pyStrip d))) = some m →
        extractDoi e = some m) ∧
      (doiSearch (pyStrip (stripDoiUrl (pyStrip d))) = none →
        extractDoi e = some (pyStrip (stripDoiUrl (pyStrip d))))) ∧
    (∀ rest : List Char,
      stripDoiUrl (doiUrlHead1 ++ rest) = rest ∧ stripDoiUrl (doiUrlHead2 ++ rest) = rest ∧
      stripDoiUrl (doiUrlHead3 ++ rest) = rest ∧ stripDoiUrl (doiUrlHead4 ++ rest) = rest) ∧
    (∀ e : Record, getField e ["doi".data] = none →
      extractDoi e
        = (["url".data, "note".data, "howpublished".data, "annote".data].findSome?
            (fun f => match getField e [f] with
              | none => none
              | some v => doiSearch v))) ∧
    (∀ rest : List Char, pyStrip rest = rest → rest ≠ [] → doiSearch rest = some rest →
      extractDoi [("doi".data, doiUrlHead3 ++ rest)] = some rest ∧
      extractDoi [("doi".data, doiUrlHead2 ++ rest)] = some rest) := by
  refine ⟨?_, ?_, ?_, ?_⟩
  · intro e d hd
    constructor
    · intro m hm
      unfold extractDoi
      rw [hd]
      dsimp only
      rw [hm]
    · intro hn
      unfold extractDoi
      rw [hd]
      dsimp only
      rw [hn]
  · intro rest
    exact ⟨stripDoiUrl_head1 rest, stripDoiUrl_head2 rest,
           stripDoiUrl_head3 rest, stripDoiUrl_head4 rest⟩
  · intro e he
    unfold extractDoi
    rw [he]
  · intro rest hs hne hm
    constructor
    · have hstrip : pyStrip (doiUrlHead3 ++ rest) = doiUrlHead3 ++ rest :=
        pyStrip_append_fix doiUrlHead3 rest (by decide) (by decide) hs hne
      have hf : getField [("doi".data, doiUrlHead3 ++ rest)] ["doi".data]
          = some (doiUrlHead3 ++ rest) := by
        have := getField_single "doi".data (doiUrlHead3 ++ rest) (by decide)
          (by rw [hstrip]; simp [doiUrlHead3])
        rwa [hstrip] at this
      unfold extractDoi
      rw [hf]
      dsimp only
      rw [hstrip, stripDoiUrl_head3, hs, hm]
    · have hstrip : pyStrip (doiUrlHead2 ++ rest) = doiUrlHead2 ++ rest :=
        pyStrip_append_fix doiUrlHead2 rest (by decide) (by decide) hs hne
      have hf : getField [("doi".data, doiUrlHead2 ++ rest)] ["doi".data]
          = some (doiUrlHead2 ++ rest) := by
        have := getField_single "doi".data (doiUrlHead2 ++ rest) (by decide)
          (by rw [hstrip]; simp [doiUrlHead2])
        rwa [hstrip] at this
      unfold extractDoi
      rw [hf]
      dsimp only
      rw [hstrip, stripDoiUrl_head2, hs, hm]

/-- C1 witness: prefixed inputs extract to the input minus the URL head, and
an unprefixed direct field extracts to its `DOI_RE` match. -/
theorem C1_witness :
    extractDoi [("doi".data, doiUrlHead3 ++ "10.1234/abcd".data)]
        = some "10.1234/abcd".data ∧
    extractDoi [("doi".data, doiUrlHead2 ++ "10.5555/x.y-z".data)]
        = some "10.5555/x.y-z".data ∧
    extractDoi [("url".data, "see 10.9999/zz-7 online".data)]
        = some "10.9999/zz-7".data := by
  refine ⟨?_, ?_, ?_⟩
  · exact (C1_amended_doi.2.2.2 "10.1234/abcd".data (by decide) (by decide) (by decide)).1
  · exact (C1_amended_doi.2.2.2 "10.5555/x.y-z".data (by decide) (by decide) (by decide)).2
  · rw [C1_amended_doi.2.2.1 [("url".data, "see 10.9999/zz-7 online".data)] (by decide)]
    decide

theorem makePdfIconLink_ne_nil (h t : List Char) : makePdfIconLink h t ≠ [] :=
  List.cons_ne_nil _ _

/-- C4: a PDF link is produced exactly when the citekey is non-empty and
`<citekey>.pdf` exists next to the source file; when produced, its target is
the base-URL join when a (non-trivial) base was supplied and the local file
URI otherwise; without the file or the citekey no PDF link is produced,
whatever the other fields. -/
theorem C4_pdf_link (pe : List Char → Bool) (uri : List Char → List Char)
    (bu : Option (List Char)) (e : Record) :
    ((buildRow pe uri bu e).pdfHtml ≠ [] ↔
      (getCitekey e ≠ [] ∧ pe (getCitekey e) = true)) ∧
    (getCitekey e ≠ [] → pe (getCitekey e) = true →
      (buildRow pe uri bu e).pdfHtml
        = makePdfIconLink
            (match pdfBase bu with
             | some b => if b = [] then uri (getCitekey e)
                         else b ++ "/".data ++ getCitekey e ++ ".pdf".data
             | none => uri (getCitekey e))
            ("Apri PDF: ".data ++ getCitekey e ++ ".pdf".data) ∧
      (buildRow pe uri bu e).pdfFull = getCitekey e ++ ".pdf".data) ∧
    ((getCitekey e = [] ∨ pe (getCitekey e) = false) →
      (buildRow pe uri bu e).pdfHtml = []) := by
  unfold buildRow
  dsimp only
  by_cases h1 : getCitekey e = []
  · rw [if_pos h1]
    refine ⟨?_, ?_, ?_⟩
    · simp [h1]
    · intro hc; exact absurd h1 hc
    · intro _; rfl
  · rw [if_neg h1]
    by_cases h2 : pe (getCitekey e) = true
    · rw [if_pos h2]
      refine ⟨?_, ?_, ?_⟩
      · simp [h1, h2, makePdfIconLink_ne_nil]
      · intro _ _; exact ⟨rfl, rfl⟩
      · rintro (hc | hc)
        · exact absurd hc h1
        · rw [h2] at hc; cases hc
    · rw [if_neg h2]
      refine ⟨?_, ?_, ?_⟩
      · simp [h1, h2]
      · intro _ hc; exact absurd hc h2
      · intro _; rfl

/-- C4 witness: with citekey abc2020 and an existing sibling abc2020.pdf a
link is produced; with no such file none is. -/
theorem C4_witness :
    (buildRow (fun ck => ck == "abc2020".data) (fun _ => "file-uri".data) none
        [("ID".data, "abc2020".data)]).pdfHtml ≠ [] ∧
    (buildRow (fun _ => false) (fun _ => "file-uri".data) none
        [("ID".data, "abc2020".data)]).pdfHtml = [] :=
  ⟨(C4_pdf_link _ _ _ _).1.mpr (by decide), (C4_pdf_link _ _ _ _).2.2 (Or.inr rfl)⟩

/-- C8 counterexample: an unparseable direct `doi` value is carried into the
row as-is, not replaced by the empty value as the claim states. -/
theorem C8_counterexample :
    (buildRow (fun _ => false) (fun _ => []) none [("doi".data, "zzz".data)]).doiFull
        = "zzz".data ∧ "zzz".data ≠ [] := by
  constructor
  · decide
  · decide

/-- C8 (amended): row construction is total and processes entries one by one
(one row per record for every input list), and every extraction function
yields the empty value when its source fields are absent; unparseable direct
`doi` and `date` values, however, are passed through rather than emptied. -/
theorem C8_amended_totality :
    (∀ (pe : List Char → Bool) (uri : List Char → List Char) (bu : Option (List Char))
        (entries : List Record),
      (buildRows pe uri bu entries).length = entries.length) ∧
    (∀ e : Record, getField e ["doi".data] = none → getField e ["url".data] = none →
      getField e ["note".data] = none → getField e ["howpublished".data] = none →
      getField e ["annote".data] = none → extractDoi e = none) ∧
    (∀ e : Record, getField e ["author".data, "authors".data] = none →
      getField e ["editor".data] = none → authorsCompactAndFull e = ([], [])) ∧
    (∀ e : Record, getField e ["title".data] = none → getField e ["booktitle".data] = none →
      getField e ["maintitle".data] = none → extractTitle e = []) ∧
    (∀ e : Record, getField e ["journal".data] = none → getField e ["booktitle".data] = none →
      getField e ["school".data] = none → getField e ["institution".data] = none →
      extractJournal e = []) ∧
    (∀ e : Record, getField e ["volume".data] = none → extractVolume e = []) ∧
    (∀ e : Record, getField e ["year".data] = none → getField e ["date".data] = none →
      extractYear e = []) ∧
    (∀ e : Record, getField e ["pages".data] = none → extractPages e = []) := by
  refine ⟨?_, ?_, ?_, ?_, ?_, ?_, ?_, ?_⟩
  · intro pe uri bu entries
    unfold buildRows
    exact List.length_map entries _
  · intro e h1 h2 h3 h4 h5
    unfold extractDoi
    rw [h1]
    simp [List.findSome?_cons, h2, h3, h4, h5]
  · intro e h1 h2
    unfold authorsCompactAndFull extractAuthorsList
    rw [h1, h2]
    rfl
  · intro e h1 h2 h3
    unfold extractTitle
    rw [h1, h2, h3]
  · intro e h1 h2 h3 h4
    unfold extractJournal
    rw [h1, h2, h3, h4]
  · intro e h1
    unfold extractVolume
    rw [h1]
  · intro e h1 h2
    unfold extractYear
    rw [h1, h2]
  · intro e h1
    unfold extractPages
    rw [h1]

/-- C8 witness: totality on a concrete list and emptiness of every extractor
on the empty record. -/
theorem C8_witness :
    (buildRows (fun _ => false) (fun _ => []) none [[], [("doi".data, "x".data)]]).length = 2 ∧
    extractDoi [] = none ∧ authorsCompactAndFull [] = ([], []) ∧ extractTitle [] = [] ∧
    extractJournal [] = [] ∧ extractVolume [] = [] ∧ extractYear [] = [] ∧
    extractPages [] = [] :=
  ⟨C8_amended_totality.1 _ _ _ _,
   C8_amended_totality.2.1 [] (by decide) (by decide) (by decide) (by decide) (by decide),
   C8_amended_totality.2.2.1 [] (by decide) (by decide),
   C8_amended_totality.2.2.2.1 [] (by decide) (by decide) (by decide),
   C8_amended_totality.2.2.2.2.1 [] (by decide) (by decide) (by decide) (by decide),
   C8_amended_totality.2.2.2.2.2.1 [] (by decide),
   C8_amended_totality.2.2.2.2.2.2.1 [] (by decide) (by decide),
   C8_amended_totality.2.2.2.2.2.2.2 [] (by decide)⟩

/-- C2: every text value is embedded through `esc`, whose output contains no
raw angle bracket or quote character; consequently the rendered row of any
record never contains the character sequence of a script tag opener, so a
title containing one never appears unescaped as markup. -/
theorem C2_escaped_rendering :
    (∀ (pe : List Char → Bool) (uri : List Char → List Char)
        (bu : Option (List Char)) (e : Record),
      ¬ occursIn "<script>".data (renderRow (buildRow pe uri bu e))) ∧
    (∀ l : List Char, ∀ c ∈ esc l, c ≠ '<' ∧ c ≠ '>' ∧ c ≠ '"' ∧ c ≠ '\'') := by
  constructor
  · intro pe uri bu e
    have hpat : "<script>".data = '<' :: 's' :: 'c' :: "ript>".data := rfl
    rw [hpat]
    exact not_script_of_guard (renderRow_buildRow_guard pe uri bu e) _
  · intro l c h
    exact esc_mem h

/-- C2 witness: a record whose title is a script tag renders to a row that
does not contain the tag. -/
theorem C2_witness :
    ¬ occursIn "<script>".data (renderRow (buildRow (fun _ => false) (fun _ => [])
      none [("title".data, "<script>alert(1)</script>".data)])) :=
  C2_escaped_rendering.1 _ _ _ _
